import Mathlib

/-!
Shallow embedding of the escrow engines of this repository: the threshold
crowdfunding contract (CrowdFunding.rs) and the NFT auction storefront
(auction.rs).  Addresses, token ids and timestamps are modelled as `Nat`,
token amounts (Rust `i128`) as `Int`; the persistent key-value storage maps
are modelled as association lists.  Each public contract entry point becomes
a Lean function returning `Option State`: `none` models a panic, which on the
ledger aborts the whole invocation with no state change.  The fields
`disbursed` and `totalIn` are ghost observation variables recording the total
value paid out of custody and the total value ever pulled into custody; the
contract code never reads them.
-/

/-! Association-list model of the key-value store. -/

def lookupA {α : Type} : List (Nat × α) → Nat → Option α
  | [], _ => none
  | (k, v) :: rest, k' => if k = k' then some v else lookupA rest k'

def setA {α : Type} : List (Nat × α) → Nat → α → List (Nat × α)
  | [], k, v => [(k, v)]
  | (k', v') :: rest, k, v =>
      if k' = k then (k, v) :: rest else (k', v') :: setA rest k v

def removeA {α : Type} : List (Nat × α) → Nat → List (Nat × α)
  | [], _ => []
  | (k', v') :: rest, k =>
      if k' = k then removeA rest k else (k', v') :: removeA rest k

/-- Immutable configuration written once by the initialization entry point:
recipient, deadline, started timestamp, target amount, token contract id. -/
structure CFConfig where
  recipient : Nat
  deadline : Nat
  started : Nat
  target : Int
  token : Nat
  deriving DecidableEq, Repr

/-- Contract state: the immutable configuration, the per-user deposited map
(DataKey.User entries, absent means 0), and the custody balance, which is the
token contract balance of the crowdfund contract address.  The last two
fields are ghost accounting for the trace-level conservation statement. -/
structure CFState where
  config : CFConfig
  claims : List (Nat × Int)
  custody : Int
  disbursed : Int
  totalIn : Int
  deriving DecidableEq, Repr

/-- Lifecycle state enumeration of CrowdFunding.rs. -/
inductive State where
  | Running
  | Success
  | Expired
  deriving DecidableEq, Repr

/-- Reads a user's deposited amount, defaulting to 0 (get_user_deposited). -/
def get_user_deposited (claims : List (Nat × Int)) (user : Nat) : Int :=
  (lookupA claims user).getD 0

/-- Writes a user's deposited amount (set_user_deposited). -/
def set_user_deposited (claims : List (Nat × Int)) (user : Nat) (amount : Int) :
    List (Nat × Int) :=
  setA claims user amount

/-- State derivation of CrowdFunding.rs get_state: Running before the
deadline, then Success when the custody token balance has reached the target,
otherwise Expired.  It reads only the stored deadline and target, the custody
balance and the ledger timestamp. -/
def get_state (s : CFState) (now : Nat) : State :=
  if now < s.config.deadline then State.Running
  else if s.config.target ≤ s.custody then State.Success
  else State.Expired

/-- Crowdfund deposit.  The caller must be authorized as user (require_auth,
modelled by the ambient authorization oracle auth), the amount positive, the
phase Running, and the user distinct from the recipient; it adds the amount
to the user's recorded claim and pulls the tokens into custody. -/
def deposit (s : CFState) (auth : Nat → Bool) (now : Nat) (user : Nat)
    (amount : Int) : Option CFState :=
  if auth user then
    if 0 < amount then
      if get_state s now = State.Running then
        if user ≠ s.config.recipient then
          some { s with
            claims := set_user_deposited s.claims user
              (get_user_deposited s.claims user + amount),
            custody := s.custody + amount,
            totalIn := s.totalIn + amount }
        else none
      else none
    else none
  else none

/-- Crowdfund withdraw.  The source performs no require_auth here, so the
ambient authorization oracle is unused.  Running: panic.  Success: only the
recipient may be the target, and the entire custody balance is transferred to
the recipient.  Expired: the target must not be the recipient; their recorded
claim is read, cleared to zero, and transferred out.  A token transfer out of
custody aborts when the amount is negative or exceeds the custody balance. -/
def withdraw (s : CFState) (auth : Nat → Bool) (now : Nat) (dest : Nat) :
    Option CFState :=
  match get_state s now with
  | State.Running => none
  | State.Success =>
      if dest = s.config.recipient then
        if 0 ≤ s.custody then
          some { s with custody := 0, disbursed := s.disbursed + s.custody }
        else none
      else none
  | State.Expired =>
      if dest ≠ s.config.recipient then
        if 0 ≤ get_user_deposited s.claims dest ∧
            get_user_deposited s.claims dest ≤ s.custody then
          some { s with
            claims := set_user_deposited s.claims dest 0,
            custody := s.custody - get_user_deposited s.claims dest,
            disbursed := s.disbursed + get_user_deposited s.claims dest }
        else none
      else none

/-- State produced by the initialization entry point: the configuration is
stored, no user has deposited, and the fresh contract holds no tokens. -/
def CFinit (cfg : CFConfig) : CFState :=
  { config := cfg, claims := [], custody := 0, disbursed := 0, totalIn := 0 }

/-- One invocation of a public crowdfunding entry point, carrying the ledger
timestamp at which it runs and the ambient authorization oracle. -/
inductive CFOp where
  | deposit (now : Nat) (auth : Nat → Bool) (user : Nat) (amount : Int)
  | withdraw (now : Nat) (auth : Nat → Bool) (dest : Nat)

/-- Ledger timestamp at which an operation runs. -/
def CFOp.time : CFOp → Nat
  | CFOp.deposit now _ _ _ => now
  | CFOp.withdraw now _ _ => now

/-- Runs one operation; none models a panic. -/
def CFrun (s : CFState) : CFOp → Option CFState
  | CFOp.deposit now auth user amount => deposit s auth now user amount
  | CFOp.withdraw now auth dest => withdraw s auth now dest

/-- A panic aborts the invocation with no state change. -/
def CFstep (s : CFState) (op : CFOp) : CFState :=
  (CFrun s op).getD s

/-- Runs a sequence of invocations. -/
def CFexec (s : CFState) (ops : List CFOp) : CFState :=
  ops.foldl CFstep s

/-- Sum of all recorded claims. -/
def sumClaims (claims : List (Nat × Int)) : Int :=
  (claims.map Prod.snd).sum

/-- Bidder record of auction.rs. -/
structure Bidder where
  user : Nat
  price : Int
  deriving DecidableEq, Repr

/-- HighestBidder record of auction.rs. -/
structure HighestBidder where
  user : Nat
  price : Int
  deriving DecidableEq, Repr

/-- AuctionNFT listing record of auction.rs, stored in instance storage under
the token id. -/
structure AuctionNFT where
  token_id : Nat
  owner : Nat
  start_price : Int
  expiration_date : Nat
  bidders : List Bidder
  highest_bidder : HighestBidder
  deriving DecidableEq, Repr

/-- Auction storefront state: the contract's own address, the stored NFT
contract address and admin, the per-token-id listing records, the NFT
contract's ownership records (NFTDetail.owner per token id, defaulting to the
NFT contract's own address when absent), and the contract's balance of the
payment token.  The fields disbursed and totalIn are ghost accounting as in
the crowdfunding model. -/
structure AucState where
  contractAddr : Nat
  nftContractAddr : Nat
  admin : Nat
  listings : List (Nat × AuctionNFT)
  nftOwners : List (Nat × Nat)
  custody : Int
  disbursed : Int
  totalIn : Int
  deriving DecidableEq, Repr

/-- Owner recorded by the NFT contract for a token id (get_nft_detail,
defaulting the owner to the NFT contract address when the id is absent). -/
def get_nft_detail_owner (s : AucState) (token_id : Nat) : Nat :=
  (lookupA s.nftOwners token_id).getD s.nftContractAddr

/-- The has_nft_owner check of nft.rs as the auction engine calls it.  Note
the inverted sense in the source: it returns true exactly when the account is
NOT the recorded owner of the token. -/
def has_nft_owner (s : AucState) (account : Nat) (token_id : Nat) : Bool :=
  get_nft_detail_owner s token_id != account

/-- The sentinel no-bidder-yet record: the engine's own account at price 0. -/
def sentinelBidder (s : AucState) : HighestBidder :=
  { user := s.contractAddr, price := 0 }

/-- Reads the listing stored under a token id, defaulting to the empty record
with token_id 0, owner and highest bidder the contract's own address
(get_auctioned_nft in auction.rs). -/
def get_auctioned_nft (s : AucState) (token_id : Nat) : AuctionNFT :=
  (lookupA s.listings token_id).getD
    { token_id := 0, owner := s.contractAddr, start_price := 0,
      expiration_date := 0, bidders := [], highest_bidder := sentinelBidder s }

/-- Listing operation auction_nft.  The sender must be authorized, must be
the recorded owner of the NFT (has_nft_owner has inverted sense), must not be
the contract address, and the token id must be nonzero; the operation then
panics only when the stored listing's owner equals the sender, and otherwise
stores a fresh listing with the sentinel highest bidder. -/
def auction_nft (s : AucState) (auth : Nat → Bool) (sender : Nat)
    (token_id : Nat) (price : Int) (expiration_date : Nat) : Option AucState :=
  if auth sender then
    if has_nft_owner s sender token_id then none
    else if sender = s.contractAddr then none
    else if token_id = 0 then none
    else if (get_auctioned_nft s token_id).owner = sender then none
    else
      some { s with
        listings := setA s.listings token_id
          { token_id := token_id, owner := sender, start_price := price,
            expiration_date := expiration_date, bidders := [],
            highest_bidder := sentinelBidder s } }
  else none

/-- Bid operation bid_nft.  Guards in source order: caller authorization,
bidder not the contract address, nonzero token id, bidder not the listing
owner, listing present (stored token_id nonzero), not past expiration (panic
only when now is strictly greater), and strictly-greater bid price.  On
success the bidder is pushed, the highest bidder replaced, the previous
highest bidder refunded when it is not the sentinel contract address (the
token transfer out of custody aborts on a negative amount or insufficient
custody), and the new bid pulled into custody (aborting on a negative
amount). -/
def bid_nft (s : AucState) (now : Nat) (auth : Nat → Bool) (user : Nat)
    (token_id : Nat) (bid_price : Int) : Option AucState :=
  if auth user then
    if user = s.contractAddr then none
    else if token_id = 0 then none
    else
      let a := get_auctioned_nft s token_id
      if a.owner = user then none
      else if a.token_id = 0 then none
      else if a.expiration_date < now then none
      else if bid_price ≤ a.highest_bidder.price then none
      else
        let prev := a.highest_bidder
        let refund : Int := if prev.user ≠ s.contractAddr then prev.price else 0
        if (prev.user = s.contractAddr ∨
              (0 ≤ prev.price ∧ prev.price ≤ s.custody)) ∧ 0 ≤ bid_price then
          some { s with
            listings := setA s.listings token_id
              { a with
                bidders := { user := user, price := bid_price } :: a.bidders,
                highest_bidder := { user := user, price := bid_price } },
            custody := s.custody - refund + bid_price,
            disbursed := s.disbursed + refund,
            totalIn := s.totalIn + bid_price }
        else none
  else none

/-- Modelled from the spec: the NFT contract is imported by auction.rs only
as a compiled artifact (nft/nft_soroban.wasm) and its transfer_from entry
point is not among the source files; following the spec's Asset Custody
Registry interface transfer_custody(from, to, asset_id), it records the
destination account as the new holder of the asset. -/
def transfer_from (owners : List (Nat × Nat)) (dest : Nat) (token_id : Nat) :
    List (Nat × Nat) :=
  setA owners token_id dest

/-- Settlement operation sell_auctioned_nft.  The source performs no
require_auth here, so the ambient authorization oracle is unused.  Guards in
source order: the owner argument must be the recorded NFT owner (inverted
has_nft_owner), not the contract address, nonzero token id, listing present,
and expiration reached (panic only when now is strictly before it).  It then
removes the listing, pays the owner the highest bid price out of custody
(aborting on a negative amount or insufficient custody), and transfers the
NFT to the highest bidder — the sentinel contract address itself when no real
bid was placed. -/
def sell_auctioned_nft (s : AucState) (now : Nat) (auth : Nat → Bool)
    (owner : Nat) (token_id : Nat) : Option AucState :=
  if has_nft_owner s owner token_id then none
  else if owner = s.contractAddr then none
  else if token_id = 0 then none
  else
    let a := get_auctioned_nft s token_id
    if a.token_id = 0 then none
    else if now < a.expiration_date then none
    else if 0 ≤ a.highest_bidder.price ∧ a.highest_bidder.price ≤ s.custody then
      some { s with
        listings := removeA s.listings token_id,
        custody := s.custody - a.highest_bidder.price,
        disbursed := s.disbursed + a.highest_bidder.price,
        nftOwners := transfer_from s.nftOwners a.highest_bidder.user token_id }
    else none

/-- Delisting operation delist_auctioned_nft.  The sender must be authorized
and be the listing owner or the admin; the listing must exist.  It removes
the listing and refunds the recorded highest bidder exactly when that bidder
is neither the listing owner, nor at price 0, nor the contract address. -/
def delist_auctioned_nft (s : AucState) (auth : Nat → Bool) (sender : Nat)
    (token_id : Nat) : Option AucState :=
  if auth sender then
    let a := get_auctioned_nft s token_id
    if a.token_id = 0 then none
    else if sender ≠ a.owner ∧ sender ≠ s.admin then none
    else if a.highest_bidder.user ≠ a.owner ∧ a.highest_bidder.price ≠ 0 ∧
        a.highest_bidder.user ≠ s.contractAddr then
      if 0 ≤ a.highest_bidder.price ∧ a.highest_bidder.price ≤ s.custody then
        some { s with
          listings := removeA s.listings token_id,
          custody := s.custody - a.highest_bidder.price,
          disbursed := s.disbursed + a.highest_bidder.price }
      else none
    else
      some { s with listings := removeA s.listings token_id }
  else none

/-- State produced by the storefront initialization entry point: NFT contract
address and admin stored, no listings, and the fresh contract holds no
payment tokens; the NFT contract's ownership records are an arbitrary
environment input. -/
def AucInit (contractAddr nftContractAddr admin : Nat)
    (nftOwners : List (Nat × Nat)) : AucState :=
  { contractAddr := contractAddr, nftContractAddr := nftContractAddr,
    admin := admin, listings := [], nftOwners := nftOwners,
    custody := 0, disbursed := 0, totalIn := 0 }

/-- One invocation of a public auction entry point. -/
inductive AOp where
  | list (auth : Nat → Bool) (sender : Nat) (token_id : Nat) (price : Int)
      (expiration_date : Nat)
  | bid (now : Nat) (auth : Nat → Bool) (user : Nat) (token_id : Nat)
      (price : Int)
  | sell (now : Nat) (auth : Nat → Bool) (owner : Nat) (token_id : Nat)
  | delist (auth : Nat → Bool) (sender : Nat) (token_id : Nat)

/-- Runs one auction operation; none models a panic. -/
def AucRun (s : AucState) : AOp → Option AucState
  | AOp.list auth sender token_id price expiration_date =>
      auction_nft s auth sender token_id price expiration_date
  | AOp.bid now auth user token_id price =>
      bid_nft s now auth user token_id price
  | AOp.sell now auth owner token_id =>
      sell_auctioned_nft s now auth owner token_id
  | AOp.delist auth sender token_id =>
      delist_auctioned_nft s auth sender token_id

/-- A panic aborts the invocation with no state change. -/
def AucStep (s : AucState) (op : AOp) : AucState :=
  (AucRun s op).getD s

/-- Runs a sequence of auction invocations. -/
def AucExec (s : AucState) (ops : List AOp) : AucState :=
  ops.foldl AucStep s

/-- Fixture configuration: recipient 0, deadline 10, started 1, target 1000,
token 5. -/
def cfgT : CFConfig :=
  { recipient := 0, deadline := 10, started := 1, target := 1000, token := 5 }

/-- Fixture crowdfund state reached by deposits of 600 and 500: target met. -/
def sSuccess : CFState :=
  { config := cfgT, claims := [(1, 600), (2, 500)], custody := 1100,
    disbursed := 0, totalIn := 1100 }

/-- Fixture crowdfund state reached by a single deposit of 400: target
unmet. -/
def sShort : CFState :=
  { config := cfgT, claims := [(1, 400)], custody := 400,
    disbursed := 0, totalIn := 400 }

/-- Fixture auction state: token 7 listed by account 1 (who holds the NFT),
account 2 is the current highest bidder at 150. -/
def sAuc : AucState :=
  { contractAddr := 0, nftContractAddr := 100, admin := 9,
    listings := [(7,
      { token_id := 7, owner := 1, start_price := 50, expiration_date := 10,
        bidders := [{ user := 2, price := 150 }],
        highest_bidder := { user := 2, price := 150 } })],
    nftOwners := [(7, 1)], custody := 150, disbursed := 0, totalIn := 150 }

/-- Fixture auction state: token 7 listed by account 1 (who holds the NFT),
no real bid yet (sentinel highest bidder). -/
def sAucNoBid : AucState :=
  { contractAddr := 0, nftContractAddr := 100, admin := 9,
    listings := [(7,
      { token_id := 7, owner := 1, start_price := 50, expiration_date := 10,
        bidders := [], highest_bidder := { user := 0, price := 0 } })],
    nftOwners := [(7, 1)], custody := 0, disbursed := 0, totalIn := 0 }

/-! Claim theorems. -/

/-- Fixture crowdfund state after depositor 1 was refunded their 400 in the
Expired phase: the result of the first successful withdraw from sShort. -/
def sShortRefunded : CFState :=
  { config := cfgT, claims := [(1, 0)], custody := 0, disbursed := 400,
    totalIn := 400 }

/-- Fixture listing for token 7 held by owner 1 with highest bid 150 from
account 2. -/
def lst7 : AuctionNFT :=
  { token_id := 7, owner := 1, start_price := 50, expiration_date := 10,
    bidders := [{ user := 2, price := 150 }],
    highest_bidder := { user := 2, price := 150 } }

/-- Fixture listing for token 7 after account 3 outbids with 200. -/
def lst7After : AuctionNFT :=
  { token_id := 7, owner := 1, start_price := 50, expiration_date := 10,
    bidders := [{ user := 3, price := 200 }, { user := 2, price := 150 }],
    highest_bidder := { user := 3, price := 200 } }

/-- Fixture auction state after account 3 outbids with 200 on sAuc: account
2 was refunded its 150 and the new bid of 200 is in custody. -/
def sAucAfterBid : AucState :=
  { contractAddr := 0, nftContractAddr := 100, admin := 9,
    listings := [(7, lst7After)], nftOwners := [(7, 1)],
    custody := 200, disbursed := 150, totalIn := 350 }

/-- Fixture listing for token 7 held by owner 1 with a live highest bid of
500 from account 3. -/
def lst7Bid500 : AuctionNFT :=
  { token_id := 7, owner := 1, start_price := 50, expiration_date := 10,
    bidders := [{ user := 3, price := 500 }],
    highest_bidder := { user := 3, price := 500 } }

/-- Fixture auction state where token 7 is listed by account 1 with a live
bid of 500, but the NFT registry now records account 2 as holder of token 7
(account 1 transferred it away through the NFT contract after listing). -/
def sAucMoved : AucState :=
  { contractAddr := 0, nftContractAddr := 100, admin := 9,
    listings := [(7, lst7Bid500)], nftOwners := [(7, 2)],
    custody := 500, disbursed := 0, totalIn := 500 }

example :
    get_state (CFexec (CFinit ⟨0, 10, 1, 1000, 5⟩)
      [CFOp.deposit 5 (fun _ => true) 1 400]) 11 = State.Expired := by decide

example :
    (CFexec (CFinit ⟨0, 10, 1, 1000, 5⟩)
      [CFOp.deposit 5 (fun _ => true) 1 400,
       CFOp.withdraw 11 (fun _ => true) 1]).custody = 0 := by decide

/-! Auction engine (auction.rs). -/

example :
    (AucExec (AucInit 0 100 9 [(7, 1)])
      [AOp.list (fun _ => true) 1 7 50 10,
       AOp.bid 3 (fun _ => true) 2 7 150,
       AOp.bid 4 (fun _ => true) 3 7 120,
       AOp.bid 5 (fun _ => true) 3 7 200]).custody = 200 := by decide

example :
    (get_auctioned_nft
      (AucExec (AucInit 0 100 9 [(7, 1)])
        [AOp.list (fun _ => true) 1 7 50 10,
         AOp.bid 3 (fun _ => true) 2 7 150,
         AOp.bid 5 (fun _ => true) 3 7 200]) 7).highest_bidder =
      { user := 3, price := 200 } := by decide

example :
    (AucExec (AucInit 0 100 9 [(7, 1)])
      [AOp.list (fun _ => true) 1 7 50 10,
       AOp.bid 3 (fun _ => true) 2 7 150,
       AOp.sell 11 (fun _ => false) 1 7]).disbursed = 150 := by decide

/-! Helper lemmas: characterization of the derived phase. -/

theorem lookupA_setA_self {α : Type} (l : List (Nat × α)) (k : Nat) (v : α) :
    lookupA (setA l k v) k = some v := by
  induction l with
  | nil => simp [setA, lookupA]
  | cons hd tl ih =>
      obtain ⟨k', v'⟩ := hd
      by_cases h : k' = k
      · simp [setA, h, lookupA]
      · simp [setA, h, lookupA, ih]

theorem lookupA_setA_ne {α : Type} (l : List (Nat × α)) (k k' : Nat) (v : α)
    (h : k ≠ k') : lookupA (setA l k v) k' = lookupA l k' := by
  induction l with
  | nil => simp [setA, lookupA, h]
  | cons hd tl ih =>
      obtain ⟨k0, v0⟩ := hd
      by_cases h0 : k0 = k
      · subst h0
        simp [setA, lookupA, h]
      · simp [setA, h0, lookupA, ih]

theorem lookupA_removeA_self {α : Type} (l : List (Nat × α)) (k : Nat) :
    lookupA (removeA l k) k = none := by
  induction l with
  | nil => simp [removeA, lookupA]
  | cons hd tl ih =>
      obtain ⟨k', v'⟩ := hd
      by_cases h : k' = k
      · simp [removeA, h, ih]
      · simp [removeA, h, lookupA, ih]

theorem lookupA_removeA_ne {α : Type} (l : List (Nat × α)) (k k' : Nat)
    (h : k ≠ k') : lookupA (removeA l k) k' = lookupA l k' := by
  induction l with
  | nil => simp [removeA, lookupA]
  | cons hd tl ih =>
      obtain ⟨k0, v0⟩ := hd
      by_cases h0 : k0 = k
      · subst h0
        simp [removeA, lookupA, h, ih]
      · simp [removeA, h0, lookupA, ih]

/-! Crowdfunding engine (CrowdFunding.rs). -/

theorem get_state_running_iff (s : CFState) (now : Nat) :
    get_state s now = State.Running ↔ now < s.config.deadline := by
  unfold get_state
  split_ifs <;> simp_all

theorem get_state_success_iff (s : CFState) (now : Nat) :
    get_state s now = State.Success ↔
      s.config.deadline ≤ now ∧ s.config.target ≤ s.custody := by
  unfold get_state
  split_ifs <;> simp_all <;> omega

theorem get_state_expired_iff (s : CFState) (now : Nat) :
    get_state s now = State.Expired ↔
      s.config.deadline ≤ now ∧ s.custody < s.config.target := by
  unfold get_state
  split_ifs <;> simp_all <;> omega

/-! Helper lemmas: per-step facts about the crowdfunding engine. -/

theorem CFstep_config (s : CFState) (op : CFOp) :
    (CFstep s op).config = s.config := by
  cases op with
  | deposit now auth user amount =>
      simp only [CFstep, CFrun, deposit]
      split_ifs <;> simp
  | withdraw now auth dest =>
      simp only [CFstep, CFrun, withdraw]
      split <;> (try split_ifs) <;> simp

theorem CFstep_conserve (s : CFState) (op : CFOp)
    (h : s.custody + s.disbursed = s.totalIn) :
    (CFstep s op).custody + (CFstep s op).disbursed = (CFstep s op).totalIn := by
  cases op with
  | deposit now auth user amount =>
      simp only [CFstep, CFrun, deposit]
      split_ifs <;> simp <;> omega
  | withdraw now auth dest =>
      simp only [CFstep, CFrun, withdraw]
      split <;> (try split_ifs) <;> simp <;> omega

theorem CFexec_conserve (ops : List CFOp) (s : CFState)
    (h : s.custody + s.disbursed = s.totalIn) :
    (CFexec s ops).custody + (CFexec s ops).disbursed =
      (CFexec s ops).totalIn := by
  induction ops generalizing s with
  | nil => simpa [CFexec]
  | cons op rest ih =>
      have h1 := CFstep_conserve s op h
      simpa [CFexec, List.foldl_cons] using ih (CFstep s op) h1

/-- After the deadline, with the target unmet, any single operation leaves
the custody balance no larger: deposits are rejected outside Running, the
Success withdrawal branch is unreachable, and the Expired branch pays out a
nonnegative recorded claim. -/
theorem CFstep_custody_le (s : CFState) (op : CFOp)
    (hd : s.config.deadline ≤ op.time) (ht : s.custody < s.config.target) :
    (CFstep s op).custody ≤ s.custody := by
  cases op with
  | deposit now auth user amount =>
      simp only [CFstep, CFrun, deposit, CFOp.time] at *
      split_ifs with h1 h2 h3 h4
      · rw [get_state_running_iff] at h3
        omega
      all_goals simp
  | withdraw now auth dest =>
      simp only [CFstep, CFrun, withdraw, CFOp.time] at *
      split
      · simp
      · rename_i hst
        rw [get_state_success_iff] at hst
        omega
      · split_ifs <;> simp <;> omega

/-- After the deadline, with the target unmet, a recorded claim that is zero
stays zero: deposits are rejected and the Expired withdrawal branch writes
zero. -/
theorem CFstep_claim_zero (s : CFState) (op : CFOp) (dest : Nat)
    (hd : s.config.deadline ≤ op.time)
    (h : get_user_deposited s.claims dest = 0) :
    get_user_deposited (CFstep s op).claims dest = 0 := by
  cases op with
  | deposit now auth user amount =>
      simp only [CFstep, CFrun, deposit, CFOp.time] at *
      split_ifs with h1 h2 h3 h4
      · rw [get_state_running_iff] at h3
        omega
      all_goals simpa
  | withdraw now auth dest' =>
      simp only [CFstep, CFrun, withdraw, CFOp.time] at *
      split
      · simpa
      · split_ifs <;> simpa
      · split_ifs with h1 h2
        · by_cases hde : dest' = dest
          · subst hde
            simp [get_user_deposited, set_user_deposited, lookupA_setA_self]
          · simpa [get_user_deposited, set_user_deposited,
              lookupA_setA_ne _ _ _ _ hde] using h
        all_goals simpa

/-- After the deadline with the target unmet, executing any sequence of
later operations preserves the configuration and keeps the custody balance
below the target. -/
theorem CFexec_after_deadline (ops : List CFOp) (s : CFState) (now : Nat)
    (hnow : s.config.deadline ≤ now) (hops : ∀ op ∈ ops, now ≤ op.time)
    (ht : s.custody < s.config.target) :
    (CFexec s ops).config = s.config ∧
      (CFexec s ops).custody < s.config.target := by
  induction ops generalizing s with
  | nil => exact ⟨rfl, ht⟩
  | cons op rest ih =>
      have hop : now ≤ op.time := hops op (List.mem_cons_self op rest)
      have hcfg := CFstep_config s op
      have hle := CFstep_custody_le s op (le_trans hnow hop) ht
      have hrec := ih (CFstep s op)
        (by rw [hcfg]; exact hnow)
        (fun o ho => hops o (List.mem_cons_of_mem op ho))
        (by rw [hcfg]; omega)
      simp only [CFexec, List.foldl_cons] at *
      rw [hcfg] at hrec
      exact hrec

/-! Helper lemmas: conservation for the auction engine. -/

theorem AucStep_conserve (s : AucState) (op : AOp)
    (h : s.custody + s.disbursed = s.totalIn) :
    (AucStep s op).custody + (AucStep s op).disbursed =
      (AucStep s op).totalIn := by
  cases op with
  | list auth sender token_id price expiration_date =>
      simp only [AucStep, AucRun, auction_nft]
      split_ifs <;> simp <;> omega
  | bid now auth user token_id price =>
      simp only [AucStep, AucRun, bid_nft]
      split_ifs <;> simp <;> omega
  | sell now auth owner token_id =>
      simp only [AucStep, AucRun, sell_auctioned_nft]
      split_ifs <;> simp <;> omega
  | delist auth sender token_id =>
      simp only [AucStep, AucRun, delist_auctioned_nft]
      split_ifs <;> simp <;> omega

theorem AucExec_conserve (ops : List AOp) (s : AucState)
    (h : s.custody + s.disbursed = s.totalIn) :
    (AucExec s ops).custody + (AucExec s ops).disbursed =
      (AucExec s ops).totalIn := by
  induction ops generalizing s with
  | nil => simpa [AucExec]
  | cons op rest ih =>
      have h1 := AucStep_conserve s op h
      simpa [AucExec, List.foldl_cons] using ih (AucStep s op) h1

/-- After the deadline with the target unmet, a zero recorded claim stays
zero under any sequence of later operations. -/
theorem CFexec_claim_zero (ops : List CFOp) (s : CFState) (now : Nat)
    (dest : Nat) (hnow : s.config.deadline ≤ now)
    (hops : ∀ op ∈ ops, now ≤ op.time)
    (h : get_user_deposited s.claims dest = 0) :
    get_user_deposited (CFexec s ops).claims dest = 0 := by
  induction ops generalizing s with
  | nil => exact h
  | cons op rest ih =>
      have hop : now ≤ op.time := hops op (List.mem_cons_self op rest)
      have hcfg := CFstep_config s op
      have hz := CFstep_claim_zero s op dest (le_trans hnow hop) h
      have hrec := ih (CFstep s op)
        (by rw [hcfg]; exact hnow)
        (fun o ho => hops o (List.mem_cons_of_mem op ho)) hz
      simpa [CFexec, List.foldl_cons] using hrec

/-! Concrete fixture states used by witnesses and counterexamples. -/

/-- Claim C1, amended.  For every sequence of operations of either engine,
starting from the freshly initialized state, the custody balance plus the
total value already disbursed (to recipients, refunded depositors, outbid
bidders and paid owners) equals the total value ever deposited into custody.
The originally stated equality, custody equal to live claims plus disbursed,
fails as soon as anything is disbursed; see the counterexample. -/
theorem conservation_value :
    (∀ (cfg : CFConfig) (ops : List CFOp),
      (CFexec (CFinit cfg) ops).custody + (CFexec (CFinit cfg) ops).disbursed =
        (CFexec (CFinit cfg) ops).totalIn) ∧
    (∀ (c n adm : Nat) (own : List (Nat × Nat)) (ops : List AOp),
      (AucExec (AucInit c n adm own) ops).custody +
          (AucExec (AucInit c n adm own) ops).disbursed =
        (AucExec (AucInit c n adm own) ops).totalIn) := by
  constructor
  · intro cfg ops
    exact CFexec_conserve ops (CFinit cfg) (by simp [CFinit])
  · intro c n adm own ops
    exact AucExec_conserve ops (AucInit c n adm own) (by simp [AucInit])

/-- Claim C1 as stated is false on the code: after a deposit of 400 and its
refund in the Expired phase, the custody balance is 0 while the sum of live
claims (0) plus the disbursed total (400) is 400. -/
theorem conservation_as_stated_cex :
    ¬ ((CFexec (CFinit cfgT)
          [CFOp.deposit 5 (fun _ => true) 1 400,
           CFOp.withdraw 11 (fun _ => true) 1]).custody =
        sumClaims (CFexec (CFinit cfgT)
          [CFOp.deposit 5 (fun _ => true) 1 400,
           CFOp.withdraw 11 (fun _ => true) 1]).claims +
        (CFexec (CFinit cfgT)
          [CFOp.deposit 5 (fun _ => true) 1 400,
           CFOp.withdraw 11 (fun _ => true) 1]).disbursed) := by
  decide

/-- Claim C3.  The derived phase is exactly Running before the deadline,
Success when the deadline has passed and the custody balance has reached the
target, and Expired otherwise; and the derivation depends only on the
deadline, the target and the custody balance (together with the clock),
hence has no other inputs and no side effects. -/
theorem phase_derivation (s : CFState) (now : Nat) :
    (get_state s now = State.Running ↔ now < s.config.deadline) ∧
    (get_state s now = State.Success ↔
      s.config.deadline ≤ now ∧ s.config.target ≤ s.custody) ∧
    (get_state s now = State.Expired ↔
      s.config.deadline ≤ now ∧ s.custody < s.config.target) ∧
    (∀ s' : CFState, s'.config.deadline = s.config.deadline →
      s'.config.target = s.config.target → s'.custody = s.custody →
      get_state s' now = get_state s now) := by
  refine ⟨get_state_running_iff s now, get_state_success_iff s now,
    get_state_expired_iff s now, ?_⟩
  intro s' h1 h2 h3
  unfold get_state
  rw [h1, h2, h3]

/-- Witness for claim C3 at concrete inputs. -/
theorem phase_derivation_witness :
    get_state sShort 3 = State.Running ∧
    get_state sSuccess 11 = State.Success ∧
    get_state sShort 11 = State.Expired ∧
    get_state (CFinit cfgT) 4 = get_state
      { config := cfgT, claims := [(8, 0)], custody := 0, disbursed := 3,
        totalIn := 3 } 4 := by
  refine ⟨?_, ?_, ?_, ?_⟩
  · exact (phase_derivation sShort 3).1.mpr (by decide)
  · exact (phase_derivation sSuccess 11).2.1.mpr (by decide)
  · exact (phase_derivation sShort 11).2.2.1.mpr (by decide)
  · exact (phase_derivation
      { config := cfgT, claims := [(8, 0)], custody := 0, disbursed := 3,
        totalIn := 3 } 4).2.2.2 (CFinit cfgT) (by decide) (by decide)
      (by decide)

/-- Claim C7, amended.  The Expired phase is terminal: once the derived
phase is Expired, it remains Expired under every later operation and every
later clock reading.  The Success phase persists under pure clock advance,
but it is not terminal under operations: the Success-phase withdrawal sweeps
the entire custody balance, after which the derived phase is Expired
whenever the target is positive; see the counterexample. -/
theorem terminal_phases :
    (∀ (s : CFState) (now now' : Nat) (ops : List CFOp),
      get_state s now = State.Expired → (∀ op ∈ ops, now ≤ op.time) →
      now ≤ now' → get_state (CFexec s ops) now' = State.Expired) ∧
    (∀ (s : CFState) (now now' : Nat),
      get_state s now = State.Success → now ≤ now' →
      get_state s now' = State.Success) := by
  constructor
  · intro s now now' ops h hops h'
    obtain ⟨hd, hl⟩ := (get_state_expired_iff s now).mp h
    obtain ⟨hcfg, hlt⟩ := CFexec_after_deadline ops s now hd hops hl
    refine (get_state_expired_iff _ now').mpr ⟨?_, ?_⟩
    · rw [hcfg]; omega
    · rw [hcfg]; exact hlt
  · intro s now now' h hle
    obtain ⟨hd, ht⟩ := (get_state_success_iff s now).mp h
    exact (get_state_success_iff s now').mpr ⟨le_trans hd hle, ht⟩

/-- Witness for claim C7 at concrete inputs. -/
theorem terminal_phases_witness :
    get_state (CFexec sShort [CFOp.withdraw 12 (fun _ => true) 1]) 13 =
      State.Expired ∧
    get_state sSuccess 42 = State.Success := by
  constructor
  · refine terminal_phases.1 sShort 11 13 _ (by decide) ?_ (by decide)
    intro op hop
    rw [List.mem_singleton] at hop
    subst hop
    decide
  · exact terminal_phases.2 sSuccess 11 42 (by decide) (by decide)

/-- Claim C7 as stated is false on the code: from a reachable state whose
derived phase is Success (deposits of 600 and 500 against target 1000,
deadline passed), the Success-phase withdrawal by the recipient empties
custody and the derived phase at the very same clock reading becomes
Expired, so Success is not terminal. -/
theorem success_not_terminal_cex :
    get_state (CFexec (CFinit cfgT)
      [CFOp.deposit 5 (fun _ => true) 1 600,
       CFOp.deposit 6 (fun _ => true) 2 500]) 11 = State.Success ∧
    get_state (CFexec (CFinit cfgT)
      [CFOp.deposit 5 (fun _ => true) 1 600,
       CFOp.deposit 6 (fun _ => true) 2 500,
       CFOp.withdraw 11 (fun _ => true) 0]) 11 = State.Expired := by
  decide

/-- Claim C5.  In the Success phase, a withdraw succeeds only with the
recipient as its target, and on success transfers the entire current custody
balance to the recipient, leaving every per-depositor recorded claim
untouched; a withdraw aimed at anyone else panics with no state change. -/
theorem success_withdraw_sweep (s : CFState) (auth : Nat → Bool)
    (now dest : Nat) (h : get_state s now = State.Success) :
    (∀ s', withdraw s auth now dest = some s' →
      dest = s.config.recipient ∧ s'.custody = 0 ∧
      s'.disbursed = s.disbursed + s.custody ∧ s'.claims = s.claims) ∧
    (dest ≠ s.config.recipient →
      withdraw s auth now dest = none ∧
      CFstep s (CFOp.withdraw now auth dest) = s) := by
  constructor
  · intro s' hs'
    simp only [withdraw, h] at hs'
    split_ifs at hs' with h1 h2
    rw [Option.some_inj] at hs'
    subst hs'
    exact ⟨h1, rfl, rfl, rfl⟩
  · intro hne
    have hnone : withdraw s auth now dest = none := by
      simp [withdraw, h, hne]
    exact ⟨hnone, by simp [CFstep, CFrun, hnone]⟩

/-- Witness for claim C5 at concrete inputs: the recipient's withdrawal
sweeps the full balance of 1100, and a depositor's withdrawal attempt in the
Success phase panics with no state change. -/
theorem success_withdraw_sweep_witness :
    ((0 : Nat) = sSuccess.config.recipient ∧
      ({ config := cfgT, claims := [(1, 600), (2, 500)], custody := 0,
          disbursed := 1100, totalIn := 1100 } : CFState).custody = 0 ∧
      ({ config := cfgT, claims := [(1, 600), (2, 500)], custody := 0,
          disbursed := 1100, totalIn := 1100 } : CFState).disbursed =
        sSuccess.disbursed + sSuccess.custody ∧
      ({ config := cfgT, claims := [(1, 600), (2, 500)], custody := 0,
          disbursed := 1100, totalIn := 1100 } : CFState).claims =
        sSuccess.claims) ∧
    (withdraw sSuccess (fun _ => true) 11 1 = none ∧
      CFstep sSuccess (CFOp.withdraw 11 (fun _ => true) 1) = sSuccess) := by
  constructor
  · exact (success_withdraw_sweep sSuccess (fun _ => true) 11 0
      (by decide)).1 _ (by decide)
  · exact (success_withdraw_sweep sSuccess (fun _ => true) 11 1
      (by decide)).2 (by decide)

/-- Claim C2.  After a first successful Expired-phase withdraw has paid out
an account's claim, that claim is cleared to zero before any later call can
read it, and any second withdraw for the same account — after any sequence
of later operations under a forward-moving clock — either panics or succeeds
as a zero-value payout, never as a second nonzero payout. -/
theorem single_resolution (s : CFState) (auth auth' : Nat → Bool)
    (now now' : Nat) (dest : Nat) (s₁ : CFState)
    (h1 : get_state s now = State.Expired)
    (h2 : withdraw s auth now dest = some s₁)
    (ops : List CFOp) (hops : ∀ op ∈ ops, now ≤ op.time)
    (h3 : now ≤ now') :
    get_user_deposited s₁.claims dest = 0 ∧
    (withdraw (CFexec s₁ ops) auth' now' dest = none ∨
      ∃ s₃, withdraw (CFexec s₁ ops) auth' now' dest = some s₃ ∧
        s₃.custody = (CFexec s₁ ops).custody ∧
        s₃.disbursed = (CFexec s₁ ops).disbursed ∧
        get_user_deposited s₃.claims dest = 0) := by
  obtain ⟨hd, hl⟩ := (get_state_expired_iff s now).mp h1
  simp only [withdraw, h1] at h2
  split_ifs at h2 with hne hguard
  rw [Option.some_inj] at h2
  subst h2
  have hz : get_user_deposited
      (set_user_deposited s.claims dest 0) dest = 0 := by
    simp [get_user_deposited, set_user_deposited, lookupA_setA_self]
  refine ⟨hz, ?_⟩
  set s₁ : CFState := { s with
    claims := set_user_deposited s.claims dest 0,
    custody := s.custody - get_user_deposited s.claims dest,
    disbursed := s.disbursed + get_user_deposited s.claims dest } with hs₁
  have hcfg1 : s₁.config = s.config := rfl
  have hlt1 : s₁.custody < s₁.config.target := by
    simp only [hs₁]
    omega
  obtain ⟨hcfg2, hlt2⟩ := CFexec_after_deadline ops s₁ now
    (by rw [hcfg1]; exact hd) hops hlt1
  have hz2 : get_user_deposited (CFexec s₁ ops).claims dest = 0 :=
    CFexec_claim_zero ops s₁ now dest (by rw [hcfg1]; exact hd) hops hz
  have hst2 : get_state (CFexec s₁ ops) now' = State.Expired := by
    refine (get_state_expired_iff _ now').mpr ⟨?_, ?_⟩
    · rw [hcfg2, hcfg1]
      omega
    · rw [hcfg2]
      exact hlt2
  have hne2 : dest ≠ (CFexec s₁ ops).config.recipient := by
    rw [hcfg2, hcfg1]
    exact hne
  by_cases hcust : (0 : Int) ≤ (CFexec s₁ ops).custody
  · right
    refine ⟨{ CFexec s₁ ops with
      claims := set_user_deposited (CFexec s₁ ops).claims dest 0,
      custody := (CFexec s₁ ops).custody -
        get_user_deposited (CFexec s₁ ops).claims dest,
      disbursed := (CFexec s₁ ops).disbursed +
        get_user_deposited (CFexec s₁ ops).claims dest }, ?_, ?_, ?_, ?_⟩
    · simp only [withdraw, hst2]
      rw [if_pos hne2, if_pos (by rw [hz2]; exact ⟨le_refl 0, hcust⟩)]
    · simp [hz2]
    · simp [hz2]
    · simp [get_user_deposited, set_user_deposited, lookupA_setA_self]
  · left
    simp only [withdraw, hst2]
    rw [if_pos hne2, if_neg (by rw [hz2]; intro hc; exact hcust hc.2)]

/-- Witness for claim C2 at concrete inputs: depositor 1 is refunded their
400 in the Expired phase, after which a second withdraw for the same account
pays zero. -/
theorem single_resolution_witness :
    get_user_deposited sShortRefunded.claims 1 = 0 ∧
    (withdraw (CFexec sShortRefunded []) (fun _ => true) 12 1 = none ∨
      ∃ s₃, withdraw (CFexec sShortRefunded []) (fun _ => true) 12 1 =
          some s₃ ∧
        s₃.custody = (CFexec sShortRefunded []).custody ∧
        s₃.disbursed = (CFexec sShortRefunded []).disbursed ∧
        get_user_deposited s₃.claims 1 = 0) := by
  exact single_resolution sShort (fun _ => true) (fun _ => true) 11 12 1
    sShortRefunded (by decide) (by decide) [] (by intro op hop; cases hop)
    (by decide)


/-! Helper lemmas: the shape of the listing store after each auction
operation. -/

theorem AucStep_listings_list (s : AucState) (auth : Nat → Bool)
    (sender tid : Nat) (p : Int) (e : Nat) :
    (AucStep s (AOp.list auth sender tid p e)).listings = s.listings ∨
    ((get_auctioned_nft s tid).owner ≠ sender ∧
      (AucStep s (AOp.list auth sender tid p e)).listings =
        setA s.listings tid
          { token_id := tid, owner := sender, start_price := p,
            expiration_date := e, bidders := [],
            highest_bidder := sentinelBidder s }) := by
  simp only [AucStep, AucRun, auction_nft]
  split_ifs <;> first
    | exact Or.inl rfl
    | exact Or.inr ⟨by assumption, rfl⟩

theorem AucStep_listings_bid (s : AucState) (now : Nat) (auth : Nat → Bool)
    (user tid : Nat) (p : Int) :
    (AucStep s (AOp.bid now auth user tid p)).listings = s.listings ∨
    ((get_auctioned_nft s tid).highest_bidder.price < p ∧
      (AucStep s (AOp.bid now auth user tid p)).listings =
        setA s.listings tid
          { get_auctioned_nft s tid with
            bidders := { user := user, price := p } ::
              (get_auctioned_nft s tid).bidders,
            highest_bidder := { user := user, price := p } }) := by
  simp only [AucStep, AucRun, bid_nft]
  split_ifs <;> first
    | exact Or.inl rfl
    | exact Or.inr ⟨by omega, rfl⟩

theorem AucStep_listings_sell (s : AucState) (now : Nat) (auth : Nat → Bool)
    (owner tid : Nat) :
    (AucStep s (AOp.sell now auth owner tid)).listings = s.listings ∨
    (AucStep s (AOp.sell now auth owner tid)).listings =
      removeA s.listings tid := by
  simp only [AucStep, AucRun, sell_auctioned_nft]
  split_ifs <;> first
    | exact Or.inl rfl
    | exact Or.inr rfl

theorem AucStep_listings_delist (s : AucState) (auth : Nat → Bool)
    (sender tid : Nat) :
    (AucStep s (AOp.delist auth sender tid)).listings = s.listings ∨
    (AucStep s (AOp.delist auth sender tid)).listings =
      removeA s.listings tid := by
  simp only [AucStep, AucRun, delist_auctioned_nft]
  split_ifs <;> first
    | exact Or.inl rfl
    | exact Or.inr rfl

/-- Helper for listing-lifetime monotonicity: across any single auction
operation, a listing that survives under the same owner never sees its
recorded highest bid price decrease.  A re-listing changes the owner, a
settlement or delisting removes the listing, and an accepted bid strictly
raises the highest price. -/
theorem AucStep_highest_mono (s : AucState) (id : Nat) (op : AOp)
    (a a' : AuctionNFT)
    (h1 : lookupA s.listings id = some a)
    (h2 : lookupA (AucStep s op).listings id = some a')
    (h3 : a'.owner = a.owner) :
    a.highest_bidder.price ≤ a'.highest_bidder.price := by
  have base : lookupA s.listings id = some a' →
      a.highest_bidder.price ≤ a'.highest_bidder.price := by
    intro h2'
    have : a = a' := Option.some_inj.mp (h1.symm.trans h2')
    subst this
    exact le_refl _
  cases op with
  | list auth sender tid p e =>
      rcases AucStep_listings_list s auth sender tid p e with h | ⟨hown, h⟩
      · rw [h] at h2
        exact base h2
      · rw [h] at h2
        by_cases htid : tid = id
        · subst htid
          rw [lookupA_setA_self] at h2
          have hga : get_auctioned_nft s tid = a := by
            simp [get_auctioned_nft, h1]
          rw [Option.some_inj] at h2
          subst h2
          rw [hga] at hown
          exact absurd h3.symm hown
        · rw [lookupA_setA_ne _ _ _ _ htid] at h2
          exact base h2
  | bid now auth user tid p =>
      rcases AucStep_listings_bid s now auth user tid p with h | ⟨hlt, h⟩
      · rw [h] at h2
        exact base h2
      · rw [h] at h2
        by_cases htid : tid = id
        · subst htid
          rw [lookupA_setA_self] at h2
          have hga : get_auctioned_nft s tid = a := by
            simp [get_auctioned_nft, h1]
          rw [Option.some_inj] at h2
          subst h2
          rw [hga] at hlt
          exact le_of_lt hlt
        · rw [lookupA_setA_ne _ _ _ _ htid] at h2
          exact base h2
  | sell now auth owner tid =>
      rcases AucStep_listings_sell s now auth owner tid with h | h
      · rw [h] at h2
        exact base h2
      · rw [h] at h2
        by_cases htid : tid = id
        · subst htid
          rw [lookupA_removeA_self] at h2
          cases h2
        · rw [lookupA_removeA_ne _ _ _ htid] at h2
          exact base h2
  | delist auth sender tid =>
      rcases AucStep_listings_delist s auth sender tid with h | h
      · rw [h] at h2
        exact base h2
      · rw [h] at h2
        by_cases htid : tid = id
        · subst htid
          rw [lookupA_removeA_self] at h2
          cases h2
        · rw [lookupA_removeA_ne _ _ _ htid] at h2
          exact base h2

/-- Shape of a successful bid: it was strictly greater than the recorded
highest bid, and the stored listing now records the bidder as highest. -/
theorem bid_nft_some_shape (s : AucState) (now : Nat) (auth : Nat → Bool)
    (user tid : Nat) (p : Int) (s' : AucState)
    (h : bid_nft s now auth user tid p = some s') :
    (get_auctioned_nft s tid).highest_bidder.price < p ∧
    s'.listings = setA s.listings tid
      { get_auctioned_nft s tid with
        bidders := { user := user, price := p } ::
          (get_auctioned_nft s tid).bidders,
        highest_bidder := { user := user, price := p } } := by
  revert h
  simp only [bid_nft]
  split_ifs <;> intro h <;> first
    | exact h.elim
    | exact Option.noConfusion h
    | (rw [Option.some_inj] at h
       subst h
       exact ⟨by omega, rfl⟩)

/-- Claim C4.  A bid is accepted only when it strictly exceeds the recorded
highest bid, and then the new highest bid is the bidder's; a bid less than
or equal to the current highest panics and leaves the whole state unchanged;
and across any operation, a listing that survives under the same owner never
sees its highest bid price decrease. -/
theorem bid_monotonicity (s : AucState) (now : Nat) (auth : Nat → Bool)
    (user token_id : Nat) (bid_price : Int) :
    (∀ s', bid_nft s now auth user token_id bid_price = some s' →
      (get_auctioned_nft s token_id).highest_bidder.price < bid_price ∧
      (get_auctioned_nft s' token_id).highest_bidder =
        { user := user, price := bid_price }) ∧
    (bid_price ≤ (get_auctioned_nft s token_id).highest_bidder.price →
      bid_nft s now auth user token_id bid_price = none ∧
      AucStep s (AOp.bid now auth user token_id bid_price) = s) ∧
    (∀ (op : AOp) (a a' : AuctionNFT),
      lookupA s.listings token_id = some a →
      lookupA (AucStep s op).listings token_id = some a' →
      a'.owner = a.owner →
      a.highest_bidder.price ≤ a'.highest_bidder.price) := by
  refine ⟨?_, ?_, ?_⟩
  · intro s' h
    obtain ⟨hlt, hshape⟩ :=
      bid_nft_some_shape s now auth user token_id bid_price s' h
    refine ⟨hlt, ?_⟩
    simp [get_auctioned_nft, hshape, lookupA_setA_self]
  · intro hle
    have hnone : bid_nft s now auth user token_id bid_price = none := by
      simp only [bid_nft]
      split_ifs <;> first | rfl | exact absurd hle (by assumption)
    exact ⟨hnone, by simp [AucStep, AucRun, hnone]⟩
  · intro op a a' ha ha' hown
    exact AucStep_highest_mono s token_id op a a' ha ha' hown

/-- Witness for claim C4 at concrete inputs: the accepted outbid of 200, the
rejected underbid of 120 leaving the state unchanged, and the per-operation
monotonicity 150 to 200 across the accepted bid. -/
theorem bid_monotonicity_witness :
    ((get_auctioned_nft sAuc 7).highest_bidder.price < 200 ∧
      (get_auctioned_nft sAucAfterBid 7).highest_bidder =
        { user := 3, price := 200 }) ∧
    (bid_nft sAuc 4 (fun _ => true) 3 7 120 = none ∧
      AucStep sAuc (AOp.bid 4 (fun _ => true) 3 7 120) = sAuc) ∧
    lst7.highest_bidder.price ≤ lst7After.highest_bidder.price := by
  refine ⟨?_, ?_, ?_⟩
  · exact (bid_monotonicity sAuc 5 (fun _ => true) 3 7 200).1 sAucAfterBid
      (by decide)
  · exact (bid_monotonicity sAuc 4 (fun _ => true) 3 7 120).2.1 (by decide)
  · exact (bid_monotonicity sAuc 5 (fun _ => true) 3 7 200).2.2
      (AOp.bid 5 (fun _ => true) 3 7 200) lst7 lst7After
      (by decide) (by decide) (by decide)

/-- Claim C6, amended.  The deposit, bid, list and delist entry points each
check the acting identity's authorization before any state mutation or value
transfer — with no authorization they panic with no effect.  The crowdfunding
withdraw and the auction settle entry points, however, perform no
authorization check at all: their outcome is independent of the ambient
authorization oracle, so anyone can invoke them; see the counterexample. -/
theorem auth_surface :
    (∀ (s : CFState) (auth auth' : Nat → Bool) (now dest : Nat),
      withdraw s auth now dest = withdraw s auth' now dest) ∧
    (∀ (s : AucState) (now : Nat) (auth auth' : Nat → Bool)
        (owner token_id : Nat),
      sell_auctioned_nft s now auth owner token_id =
        sell_auctioned_nft s now auth' owner token_id) ∧
    (∀ (s : CFState) (auth : Nat → Bool) (now user : Nat) (amount : Int),
      auth user = false → deposit s auth now user amount = none) ∧
    (∀ (s : AucState) (auth : Nat → Bool) (sender token_id : Nat)
        (price : Int) (e : Nat),
      auth sender = false →
        auction_nft s auth sender token_id price e = none) ∧
    (∀ (s : AucState) (now : Nat) (auth : Nat → Bool) (user token_id : Nat)
        (price : Int),
      auth user = false → bid_nft s now auth user token_id price = none) ∧
    (∀ (s : AucState) (auth : Nat → Bool) (sender token_id : Nat),
      auth sender = false →
        delist_auctioned_nft s auth sender token_id = none) := by
  refine ⟨?_, ?_, ?_, ?_, ?_, ?_⟩
  · intro s auth auth' now dest
    rfl
  · intro s now auth auth' owner token_id
    rfl
  · intro s auth now user amount h
    simp [deposit, h]
  · intro s auth sender token_id price e h
    simp [auction_nft, h]
  · intro s now auth user token_id price h
    simp [bid_nft, h]
  · intro s auth sender token_id h
    simp [delist_auctioned_nft, h]

/-- Witness for claim C6 at concrete inputs. -/
theorem auth_surface_witness :
    withdraw sSuccess (fun _ => false) 11 0 =
      withdraw sSuccess (fun _ => true) 11 0 ∧
    sell_auctioned_nft sAuc 11 (fun _ => false) 1 7 =
      sell_auctioned_nft sAuc 11 (fun _ => true) 1 7 ∧
    deposit sShort (fun _ => false) 5 2 50 = none ∧
    auction_nft sAucNoBid (fun _ => false) 1 7 50 10 = none ∧
    bid_nft sAuc 5 (fun _ => false) 3 7 200 = none ∧
    delist_auctioned_nft sAuc (fun _ => false) 1 7 = none := by
  refine ⟨?_, ?_, ?_, ?_, ?_, ?_⟩
  · exact auth_surface.1 sSuccess (fun _ => false) (fun _ => true) 11 0
  · exact auth_surface.2.1 sAuc 11 (fun _ => false) (fun _ => true) 1 7
  · exact auth_surface.2.2.1 sShort (fun _ => false) 5 2 50 rfl
  · exact auth_surface.2.2.2.1 sAucNoBid (fun _ => false) 1 7 50 10 rfl
  · exact auth_surface.2.2.2.2.1 sAuc 5 (fun _ => false) 3 7 200 rfl
  · exact auth_surface.2.2.2.2.2 sAuc (fun _ => false) 1 7 rfl

/-- Claim C6 as stated is false on the code: the crowdfunding withdraw and
the auction settle succeed even when no identity whatsoever is authorized —
neither entry point calls require_auth — so they perform no acting-identity
authorization check. -/
theorem auth_surface_cex :
    (withdraw sSuccess (fun _ => false) 11 0).isSome = true ∧
    (sell_auctioned_nft sAuc 11 (fun _ => false) 1 7).isSome = true := by
  decide

/-- Claim C8, amended.  The list operation panics on an already-listed asset
only when the stored listing was recorded by the same sender; when the asset
is listed by a different account and the sender passes the
ownership/sender/id guards, the operation succeeds and silently replaces the
stored listing with a fresh one whose highest bid is reset to the sentinel,
without refunding the displaced highest bidder. -/
theorem relist_guard (s : AucState) (auth : Nat → Bool)
    (sender token_id : Nat) (price : Int) (expiration_date : Nat) :
    ((get_auctioned_nft s token_id).owner = sender →
      auction_nft s auth sender token_id price expiration_date = none ∧
      AucStep s (AOp.list auth sender token_id price expiration_date) = s) ∧
    (auth sender = true → has_nft_owner s sender token_id = false →
      sender ≠ s.contractAddr → token_id ≠ 0 →
      (get_auctioned_nft s token_id).owner ≠ sender →
      auction_nft s auth sender token_id price expiration_date =
        some { s with listings := (setA s.listings token_id
          { token_id := token_id, owner := sender, start_price := price,
            expiration_date := expiration_date, bidders := [],
            highest_bidder := sentinelBidder s }) }) := by
  constructor
  · intro h
    have hnone : auction_nft s auth sender token_id price expiration_date =
        none := by
      simp only [auction_nft]
      split_ifs <;> first | rfl | exact absurd h (by assumption)
    exact ⟨hnone, by simp [AucStep, AucRun, hnone]⟩
  · intro hauth hhas hsender hid hown
    simp [auction_nft, hauth, hhas, hsender, hid, hown]

/-- Witness for claim C8 at concrete inputs: owner 1 re-listing its own
already-listed token 7 panics with no state change, while account 2 (which
meanwhile acquired the NFT) successfully replaces account 1's listing. -/
theorem relist_guard_witness :
    (auction_nft sAuc (fun _ => true) 1 7 60 20 = none ∧
      AucStep sAuc (AOp.list (fun _ => true) 1 7 60 20) = sAuc) ∧
    auction_nft sAucMoved (fun _ => true) 2 7 60 20 =
      some { sAucMoved with listings := (setA sAucMoved.listings 7
        { token_id := 7, owner := 2, start_price := 60,
          expiration_date := 20, bidders := [],
          highest_bidder := sentinelBidder sAucMoved }) } := by
  constructor
  · exact (relist_guard sAuc (fun _ => true) 1 7 60 20).1 (by decide)
  · exact (relist_guard sAucMoved (fun _ => true) 2 7 60 20).2 rfl
      (by decide) (by decide) (by decide) (by decide)

/-- Claim C8 as stated is false on the code: token 7 is already listed by
account 1 with a live highest bid of 500, yet the list operation by account
2 succeeds and replaces the stored record — the owner becomes 2 and the
recorded highest bid of 500 is wiped to the sentinel without a refund. -/
theorem relist_overwrite_cex :
    (auction_nft sAucMoved (fun _ => true) 2 7 60 20).isSome = true ∧
    (get_auctioned_nft
      (AucStep sAucMoved (AOp.list (fun _ => true) 2 7 60 20)) 7).owner = 2 ∧
    (get_auctioned_nft
      (AucStep sAucMoved (AOp.list (fun _ => true) 2 7 60 20))
        7).highest_bidder = { user := 0, price := 0 } := by
  decide

/-- Claim C9.  Settling a listed auction whose highest bidder is still the
sentinel (the engine's own account at price 0) succeeds once the expiration
date is reached: the listing is removed, the owner is paid zero (custody and
disbursed totals unchanged), and custody of the NFT is transferred to the
engine's own contract address. -/
theorem settle_no_bids (s : AucState) (now : Nat) (auth : Nat → Bool)
    (owner token_id : Nat) (a : AuctionNFT)
    (hl : lookupA s.listings token_id = some a)
    (hsent : a.highest_bidder = { user := s.contractAddr, price := 0 })
    (hown : get_nft_detail_owner s token_id = owner)
    (hoc : owner ≠ s.contractAddr)
    (hid : token_id ≠ 0)
    (haid : a.token_id ≠ 0)
    (hexp : a.expiration_date ≤ now)
    (hcust : 0 ≤ s.custody) :
    ∃ s', sell_auctioned_nft s now auth owner token_id = some s' ∧
      s'.custody = s.custody ∧ s'.disbursed = s.disbursed ∧
      lookupA s'.listings token_id = none ∧
      get_nft_detail_owner s' token_id = s.contractAddr := by
  have hga : get_auctioned_nft s token_id = a := by
    simp [get_auctioned_nft, hl]
  have hhas : has_nft_owner s owner token_id = false := by
    simp [has_nft_owner, hown]
  refine ⟨{ s with
    listings := removeA s.listings token_id,
    custody := s.custody - a.highest_bidder.price,
    disbursed := s.disbursed + a.highest_bidder.price,
    nftOwners := transfer_from s.nftOwners a.highest_bidder.user token_id },
    ?_, ?_, ?_, ?_, ?_⟩
  · simp only [sell_auctioned_nft, hga, hhas]
    rw [if_neg (by simp), if_neg hoc, if_neg hid, if_neg haid,
      if_neg (by omega), if_pos (by rw [hsent]; exact ⟨le_refl 0, hcust⟩)]
  · simp [hsent]
  · simp [hsent]
  · simp [lookupA_removeA_self]
  · simp [get_nft_detail_owner, transfer_from, lookupA_setA_self, hsent]

/-- Witness for claim C9 at concrete inputs: settling the bid-less listing
of token 7 at time 11. -/
theorem settle_no_bids_witness :
    ∃ s', sell_auctioned_nft sAucNoBid 11 (fun _ => true) 1 7 = some s' ∧
      s'.custody = sAucNoBid.custody ∧ s'.disbursed = sAucNoBid.disbursed ∧
      lookupA s'.listings 7 = none ∧
      get_nft_detail_owner s' 7 = sAucNoBid.contractAddr := by
  exact settle_no_bids sAucNoBid 11 (fun _ => true) 1 7
    { token_id := 7, owner := 1, start_price := 50, expiration_date := 10,
      bidders := [], highest_bidder := { user := 0, price := 0 } }
    (by decide) (by decide) (by decide) (by decide) (by decide) (by decide)
    (by decide) (by decide)

/-- Claim C10.  At the instant the clock equals the expiration date, both
operation windows are open: the bid guard rejects only a strictly later
clock and the settle guard rejects only a strictly earlier clock, so with
every other precondition satisfied, a bid and a settlement both succeed at
the expiration timestamp itself. -/
theorem expiration_boundary (s : AucState) (auth : Nat → Bool)
    (user owner token_id : Nat) (p : Int) (a : AuctionNFT)
    (hl : lookupA s.listings token_id = some a)
    (hid : token_id ≠ 0)
    (haid : a.token_id ≠ 0)
    (hauth : auth user = true)
    (huc : user ≠ s.contractAddr)
    (huo : a.owner ≠ user)
    (hp : a.highest_bidder.price < p)
    (hrefund : a.highest_bidder.user = s.contractAddr ∨
      (0 ≤ a.highest_bidder.price ∧ a.highest_bidder.price ≤ s.custody))
    (hpull : 0 ≤ p)
    (hown : get_nft_detail_owner s token_id = owner)
    (hoc : owner ≠ s.contractAddr)
    (hpay : 0 ≤ a.highest_bidder.price ∧ a.highest_bidder.price ≤ s.custody) :
    (bid_nft s a.expiration_date auth user token_id p).isSome = true ∧
    (sell_auctioned_nft s a.expiration_date auth owner
      token_id).isSome = true := by
  have hga : get_auctioned_nft s token_id = a := by
    simp [get_auctioned_nft, hl]
  have hhas : has_nft_owner s owner token_id = false := by
    simp [has_nft_owner, hown]
  constructor
  · simp only [bid_nft, hga, hauth, if_true]
    rw [if_neg huc, if_neg hid, if_neg huo, if_neg haid,
      if_neg (by omega), if_neg (by omega), if_pos ⟨hrefund, hpull⟩]
    rfl
  · simp only [sell_auctioned_nft, hga, hhas]
    rw [if_neg (by simp), if_neg hoc, if_neg hid, if_neg haid,
      if_neg (by omega), if_pos hpay]
    rfl

/-- Witness for claim C10 at concrete inputs: at time 10, the exact
expiration date of the fixture listing, both a bid of 200 by account 3 and a
settlement by owner 1 succeed. -/
theorem expiration_boundary_witness :
    (bid_nft sAuc 10 (fun _ => true) 3 7 200).isSome = true ∧
    (sell_auctioned_nft sAuc 10 (fun _ => true) 1 7).isSome = true := by
  exact expiration_boundary sAuc (fun _ => true) 3 1 7 200 lst7
    (by decide) (by decide) (by decide) (by decide) (by decide) (by decide)
    (by decide) (by decide) (by decide) (by decide) (by decide) (by decide)
